import Mathlib

/-!
Verification of `scrub` (src/scrub.c): a tool that recursively collapses a
directory tree by deleting files matching clobber rules (by basename or by
extension) and removing directories that become empty, bottom-up.

The shallow embedding models the filesystem as a finite tree of named
entries.  OS-level failures (opendir, unlink, rmdir) are injected through an
environment `Env` naming the paths where each primitive fails, together with
the `errno` value the OS would report there.  The C walk only ever touches the
subtree below the directory being processed, so `Directory_process` is
modelled locally: it takes the subtree and returns the transformed subtree,
the emitted log lines, and its errno-style result.
-/

namespace Scrub

/-- Success value for errno, as in the C source (`ENONE = 0`). -/
def ENONE : Nat := 0

/-- `ENOTEMPTY` errno value (Linux). -/
def ENOTEMPTY : Nat := 39

/-- The C `File_unlink` has return type `u32`; `unlink`/`rmdir` return the
`int` value `-1` on failure, which converts to `2^32 - 1` as `u32`. -/
def UMAX : Nat := 4294967295

/-- Directory-entry type, mirroring the `d_type` values the C switch
dispatches on (`DT_DIR`, `DT_BLK`, `DT_CHR`, `DT_FIFO`, `DT_LNK`, `DT_SOCK`,
`DT_UNKNOWN`, `DT_REG`). -/
inductive DType where
  | dir
  | reg
  | blk
  | chr
  | fifo
  | lnk
  | sock
  | unknown
  deriving DecidableEq, Repr

/-- The special types handled by the `DT_BLK .. DT_SOCK` cases. -/
def DType.isSpecial : DType → Bool
  | .blk => true
  | .chr => true
  | .fifo => true
  | .lnk => true
  | .sock => true
  | _ => false

/-- A path, as a list of components; the C builds `"%s/%s"` strings. -/
abbrev Path := List String

/-- Render a path the way the C `asprintf("%s/%s", ...)` chain does. -/
def pathStr (p : Path) : String := String.intercalate "/" p

/-- Lines written to stderr.  `error` lines come from `Runtime_putError`
(unconditional), `info` lines from `Runtime_verbose` (only when verbose). -/
inductive LogLine where
  | error (msg : String)
  | info (msg : String)
  deriving DecidableEq, Repr

/-- The parsed command-line configuration (struct `Configuration`). -/
structure Configuration where
  verbose : Bool
  simulate : Bool
  preserveHidden : Bool
  preserveSpecial : Bool
  clobberExtensions : List String
  clobberNames : List String
  deriving DecidableEq, Repr

/-- Environment injecting OS-level failures: the paths where `opendir`
fails, the paths where `unlink`/`rmdir` fail, and the `errno` value the OS
reports for a failed call on each path. -/
structure Env where
  openFails : List Path
  unlinkFails : List Path
  errnoAt : Path → Nat

mutual
/-- A model filesystem node: a non-directory entry carrying its reported
`d_type`, or a directory with a list of named children (`.` and `..` are not
stored; `readdir` synthesises them). -/
inductive FSNode where
  | file (t : DType)
  | dir (entries : Entries)
  deriving DecidableEq, Repr

inductive Entries where
  | nil
  | cons (name : String) (node : FSNode) (rest : Entries)
  deriving DecidableEq, Repr
end

/-- The names of a directory's entries, in `readdir` order. -/
def Entries.names : Entries → List String
  | .nil => []
  | .cons n _ rest => n :: rest.names

def Entries.isNil : Entries → Bool
  | .nil => true
  | .cons _ _ _ => false

/-- The `d_type` reported for a node. -/
def dtypeOf : FSNode → DType
  | .file t => t
  | .dir _ => .dir

/-- `Runtime_putError`: unconditional stderr output. -/
def Runtime_putError (msg : String) : List LogLine := [.error msg]

/-- `Runtime_verbose`: stderr output only when `config->verbose`. -/
def Runtime_verbose (config : Configuration) (msg : String) : List LogLine :=
  if config.verbose then [.info msg] else []

/-! ## Policy (lines 199-251, 334-358 of scrub.c) -/

/-- The linear `strcmp` search loop shared by
`Configuration_shouldClobberName` and `Configuration_shouldClobberExtension`. -/
def clobberSearch (s : String) : List String → Bool
  | [] => false
  | x :: rest => if s == x then true else clobberSearch s rest

/-- `Configuration_shouldClobberExtension`. -/
def Configuration_shouldClobberExtension (config : Configuration) (extension : String) : Bool :=
  clobberSearch extension config.clobberExtensions

/-- `Configuration_shouldClobberName`. -/
def Configuration_shouldClobberName (config : Configuration) (name : String) : Bool :=
  clobberSearch name config.clobberNames

/-- `strrchr(basename, '.')` followed by `++extensionStart`: the suffix after
the last `.`, or `none` when the string has no `.` at all. -/
def strrchrSuffix (s : String) : Option String :=
  if s.toList.contains '.' then
    some (String.mk ((s.toList.reverse.takeWhile (fun c => c != '.')).reverse))
  else
    none

/-- `File_shouldClobber` (lines 334-348). -/
def File_shouldClobber (config : Configuration) (basename : String) : Bool :=
  if Configuration_shouldClobberName config basename then
    true
  else
    match strrchrSuffix basename with
    | some extensionStart => Configuration_shouldClobberExtension config extensionStart
    | none => false

/-- Index of the first occurrence of `c`, or the length of the list when
absent: the offset computed by `strchrnul`. -/
def strchrnulIdx (c : Char) : List Char → Nat
  | [] => 0
  | x :: rest => if x == c then 0 else strchrnulIdx c rest + 1

/-- `File_isHidden` (lines 355-358): the C returns
`(basename - strchrnul(basename, '.')) == 0`, i.e. the first `.` (or the
terminating NUL) sits at offset 0. -/
def File_isHidden (basename : String) : Bool :=
  strchrnulIdx '.' basename.toList == 0

/-! ## Eliminator and emptiness oracle (lines 310-409 of scrub.c) -/

/-- Which removal primitive `File_unlink` ended up invoking. -/
inductive Prim where
  | rmdirPrim
  | unlinkPrim
  | nonePrim
  deriving DecidableEq, Repr

/-- Result of a `File_unlink` call: whether the entry was removed from the
filesystem, the stderr lines emitted, the `u32` return value, and which
primitive was dispatched to. -/
structure UnlinkResult where
  removed : Bool
  logs : List LogLine
  ret : Nat
  prim : Prim
  deriving Repr

/-- `File_unlink` (lines 310-326).  In simulate mode it only logs
`unlink(<path>)` and returns 0.  Otherwise it `stat`s the path (the `node`
argument is the entry the path currently designates) and dispatches to
`rmdir` for directories, `unlink` for everything else; both primitives
return `0` on success and `-1` (as `u32`: `UMAX`) on failure, failure being
injected by the environment. -/
def File_unlink (config : Configuration) (env : Env) (path : Path) (node : FSNode) :
    UnlinkResult :=
  if config.simulate then
    { removed := false
      logs := Runtime_putError ("unlink(" ++ pathStr path ++ ")\n")
      ret := 0
      prim := .nonePrim }
  else
    match node with
    | .dir _ =>
      if env.unlinkFails.contains path then
        { removed := false, logs := [], ret := UMAX, prim := .rmdirPrim }
      else
        { removed := true, logs := [], ret := 0, prim := .rmdirPrim }
    | .file _ =>
      if env.unlinkFails.contains path then
        { removed := false, logs := [], ret := UMAX, prim := .unlinkPrim }
      else
        { removed := true, logs := [], ret := 0, prim := .unlinkPrim }

/-- `opendir` followed by the `readdir` stream: `.` and `..` first, then the
real entries.  Fails (`none`) when the environment says so or when the node
is not a directory. -/
def opendirNames (env : Env) (path : Path) (node : FSNode) : Option (List String) :=
  if env.openFails.contains path then
    none
  else
    match node with
    | .dir es => some ("." :: ".." :: es.names)
    | .file _ => none

/-- The counting loop of `Directory_isEmpty`: `while (entry = readdir(dir))
{ if (++index > 2) break; }` — stops as soon as the count exceeds 2. -/
def isEmptyCount : List String → Nat → Nat
  | [], index => index
  | _ :: rest, index =>
    if index + 1 > 2 then index + 1 else isEmptyCount rest (index + 1)

/-- `Directory_isEmpty` (lines 365-387): returns `index <= 2` after the
counting loop; on open failure logs an error and returns false. -/
def Directory_isEmpty (env : Env) (path : Path) (node : FSNode) : Bool × List LogLine :=
  match opendirNames env path node with
  | some stream => (decide (isEmptyCount stream 0 ≤ 2), [])
  | none =>
    (false,
      Runtime_putError ("Directory_isEmpty(" ++ pathStr path ++
        "): could not open directory: ERRNO " ++ toString (env.errnoAt path) ++ "\n"))

/-- `basename()`: the last component of a path. -/
def basenameOf : Path → String
  | [] => ""
  | [x] => x
  | _ :: y :: rest => basenameOf (y :: rest)

/-- Result of `File_process`: whether the entry was removed, the stderr
lines, and the errno-style return value. -/
structure ProcResult where
  removed : Bool
  logs : List LogLine
  ret : Nat
  deriving Repr

/-- `File_process` (lines 389-409): extract the basename, consult
`File_shouldClobber`; if it says clobber, call `File_unlink`; on a `-1`
return log the error and return `errno`, else return `ENONE`. -/
def File_process (config : Configuration) (env : Env) (path : Path) (node : FSNode) :
    ProcResult :=
  let fileName := basenameOf path
  if File_shouldClobber config fileName then
    let ur := File_unlink config env path node
    if ur.ret == UMAX then
      { removed := ur.removed
        logs := ur.logs ++
          Runtime_putError ("Could not unlink " ++ pathStr path ++ ": ERRNO " ++
            toString (env.errnoAt path) ++ "\n")
        ret := env.errnoAt path }
    else
      { removed := ur.removed, logs := ur.logs, ret := ENONE }
  else
    { removed := false, logs := [], ret := ENONE }

/-! ## Tree walker (lines 411-485 of scrub.c) -/

/-- The `DT_UNKNOWN`/`DT_REG` case of the entry switch (also reached by
fall-through from the unpreserved special cases): run `File_process` on the
entry and log, when verbose, a failing return status. -/
def Directory_processFileEntry (config : Configuration) (env : Env) (path : Path)
    (name : String) (child : FSNode) : Option FSNode × List LogLine :=
  let currentEntryPath := path ++ [name]
  let fp := File_process config env currentEntryPath child
  let failLog :=
    if fp.ret == ENONE then []
    else
      Runtime_verbose config ("File_process(" ++ pathStr currentEntryPath ++
        ") failed: ERRNO " ++ toString fp.ret ++ "\n")
  (if fp.removed then none else some child, fp.logs ++ failLog)

/-- After processing a child directory: when the recursion returned `ENONE`,
consult `Directory_isEmpty` and, when empty, request removal through
`File_unlink` (note: by emptiness alone, `File_shouldClobber` is never
consulted), logging a failed removal; when non-empty, log (verbose) that it
is kept.  When the recursion failed, log the error.  `pr` is the recursion
result for the child. -/
def Directory_afterChild (config : Configuration) (env : Env)
    (currentEntryPath : Path) (pr : FSNode × List LogLine × Nat) :
    Option FSNode × List LogLine :=
  let child2 := pr.1
  let completionState := pr.2.2
  if completionState == ENONE then
    let ie := Directory_isEmpty env currentEntryPath child2
    if ie.1 then
      let ur := File_unlink config env currentEntryPath child2
      let failLog :=
        if ur.ret == UMAX then
          Runtime_putError ("Could not unlink directory " ++ pathStr currentEntryPath ++
            ": ERRNO " ++ toString (env.errnoAt currentEntryPath) ++ "\n")
        else []
      (if ur.removed then none else some child2,
        pr.2.1 ++ ie.2 ++ ur.logs ++ failLog)
    else
      (some child2,
        pr.2.1 ++ ie.2 ++
          Runtime_verbose config ("Directory " ++ pathStr currentEntryPath ++
            " is not empty. Not unlinking.\n"))
  else
    (some child2,
      pr.2.1 ++
        Runtime_putError ("Could not process directory " ++ pathStr currentEntryPath ++
          ": ERRNO " ++ toString completionState ++ "\n"))

mutual
/-- `Directory_process` (lines 411-485): open the directory (failure returns
`errno` and leaves everything untouched), iterate its entries, and return
`ENONE`.  The returned node is the directory after processing. -/
def Directory_process (config : Configuration) (env : Env) (path : Path) :
    FSNode → FSNode × List LogLine × Nat
  | .file t =>
    (.file t, [], env.errnoAt path)
  | .dir es =>
    if env.openFails.contains path then
      (.dir es, [], env.errnoAt path)
    else
      let r := Directory_processEntries config env path es
      (.dir r.1, r.2, ENONE)
  termination_by structural node => node

/-- The `while (currentEntry = readdir(dir))` loop of `Directory_process`,
iterating over the entry snapshot; `.` and `..` are skipped (the model does
not store them, but the check is kept).  Each entry goes through the
`switch (currentEntry->d_type)`: directories are recursed into (unless the
hidden-preservation rule skips them) with `Directory_afterChild` handling
the emptiness check afterwards; special types are skipped when preserved,
else fall through to the regular handling; regular/unknown entries go
through `Directory_processFileEntry`.  An entry whose handler returns
`none` has been removed. -/
def Directory_processEntries (config : Configuration) (env : Env) (path : Path) :
    Entries → Entries × List LogLine
  | .nil => (.nil, [])
  | .cons name child rest =>
    if name == "." || name == ".." then
      let r := Directory_processEntries config env path rest
      (.cons name child r.1, r.2)
    else
      let e : Option FSNode × List LogLine :=
        match dtypeOf child with
        | .dir =>
          if config.preserveHidden && File_isHidden name then
            (some child, [])
          else
            Directory_afterChild config env (path ++ [name])
              (Directory_process config env (path ++ [name]) child)
        | .blk | .chr | .fifo | .lnk | .sock =>
          if config.preserveSpecial then
            (some child, [])
          else
            Directory_processFileEntry config env path name child
        | .unknown | .reg =>
          Directory_processFileEntry config env path name child
      let r := Directory_processEntries config env path rest
      (match e.1 with
       | some child2 => .cons name child2 r.1
       | none => r.1,
       e.2 ++ r.2)
  termination_by structural es => es
end

/-- The `switch (currentEntry->d_type)` body for one entry, as a standalone
function (identical to the inline dispatch inside
`Directory_processEntries`; see `Directory_processEntries_cons`). -/
def Directory_processEntry (config : Configuration) (env : Env) (path : Path)
    (name : String) (child : FSNode) : Option FSNode × List LogLine :=
  match dtypeOf child with
  | .dir =>
    if config.preserveHidden && File_isHidden name then
      (some child, [])
    else
      Directory_afterChild config env (path ++ [name])
        (Directory_process config env (path ++ [name]) child)
  | .blk | .chr | .fifo | .lnk | .sock =>
    if config.preserveSpecial then
      (some child, [])
    else
      Directory_processFileEntry config env path name child
  | .unknown | .reg =>
    Directory_processFileEntry config env path name child

/-! ## Driver loop (lines 543-583 of scrub.c) -/

/-- One root argument of `main`: the path string the user passed (as
components) and the node it currently designates. -/
structure RootArg where
  path : Path
  node : FSNode

/-- The per-root loop of `main`: `stat` each root; directories go through
`Directory_process` (result discarded) followed by the `Directory_isEmpty`
dirty check; anything else goes through `File_process` (result discarded).
Returns the final state of each root (`none` when removed), the stderr
lines, and the `dirty` flag. -/
def mainLoop (config : Configuration) (env : Env) :
    List RootArg → Bool → List (Option FSNode) × List LogLine × Bool
  | [], dirty => ([], [], dirty)
  | r :: rest, dirty =>
    match r.node with
    | .dir es =>
      let lv := Runtime_verbose config ("Processing directory " ++ pathStr r.path ++ "\n")
      let pr := Directory_process config env r.path (.dir es)
      let ie := Directory_isEmpty env r.path pr.1
      let dirty2 := if !ie.1 then true else dirty
      let rec2 := mainLoop config env rest dirty2
      (some pr.1 :: rec2.1, lv ++ pr.2.1 ++ ie.2 ++ rec2.2.1, rec2.2.2)
    | .file t =>
      let lv := Runtime_verbose config ("Processing node " ++ pathStr r.path ++ "\n")
      let fp := File_process config env r.path (.file t)
      let rec2 := mainLoop config env rest dirty
      ((if fp.removed then none else some (.file t)) :: rec2.1,
        lv ++ fp.logs ++ rec2.2.1, rec2.2.2)

/-- Result of a whole run over the root arguments. -/
structure RunResult where
  roots : List (Option FSNode)
  logs : List LogLine
  exitCode : Nat

/-- The filesystem-processing part of `main` (lines 543-583): process every
root, then exit with `ENOTEMPTY` when dirty and `ENONE` otherwise. -/
def scrubMain (config : Configuration) (env : Env) (roots : List RootArg) : RunResult :=
  let r := mainLoop config env roots false
  { roots := r.1, logs := r.2.1, exitCode := if r.2.2 then ENOTEMPTY else ENONE }

/-! ## Auxiliary predicates for the theorems -/

/-- True when no line of the log was emitted through `Runtime_putError`. -/
def noErrors : List LogLine → Bool
  | [] => true
  | .error _ :: _ => false
  | .info _ :: rest => noErrors rest

/-- A node is a directory. -/
def isDirNode : FSNode → Bool
  | .dir _ => true
  | .file _ => false

mutual
/-- Well-formedness of a model tree, capturing what a real filesystem
guarantees: a non-directory node never reports `DT_DIR`, and no stored
entry is literally named `.` or `..` (those are synthesised by `readdir`,
not stored). -/
def wfNode : FSNode → Bool
  | .file t => t != DType.dir
  | .dir es => wfEntries es

def wfEntries : Entries → Bool
  | .nil => true
  | .cons n c rest => !(n == "." || n == "..") && wfNode c && wfEntries rest
end

mutual
/-- A node is fully scrubbed for `config` under the given entry `name`:
a surviving non-directory either is a preserved special file or does not
match the clobber policy; a surviving directory either is skipped by the
hidden-preservation rule or has scrubbed, non-empty contents. -/
def scrubbedNode (config : Configuration) (name : String) : FSNode → Bool
  | .file t => (t.isSpecial && config.preserveSpecial) || !File_shouldClobber config name
  | .dir es =>
    (config.preserveHidden && File_isHidden name) ||
      (scrubbedEntries config es && !es.isNil)

/-- All entries of a directory are scrubbed. -/
def scrubbedEntries (config : Configuration) : Entries → Bool
  | .nil => true
  | .cons n c rest => scrubbedNode config n c && scrubbedEntries config rest
end

/-! ## Helper lemmas -/

theorem clobberSearch_iff (s : String) (l : List String) :
    clobberSearch s l = true ↔ s ∈ l := by
  induction l with
  | nil => simp [clobberSearch]
  | cons x rest ih =>
    by_cases h : s = x
    · simp [clobberSearch, h]
    · simp [clobberSearch, h, ih]

theorem takeWhile_append_of_all {p : Char → Bool} {l1 l2 : List Char} {x : Char}
    (h : ∀ a ∈ l1, p a = true) (hx : p x = false) :
    (l1 ++ x :: l2).takeWhile p = l1 := by
  induction l1 with
  | nil => simp [List.takeWhile, hx]
  | cons a rest ih =>
    have ha : p a = true := h a (by simp)
    simp only [List.cons_append, List.takeWhile_cons, ha, if_true]
    rw [ih (fun b hb => h b (by simp [hb]))]

theorem strrchrSuffix_of_split (x ext : String)
    (hext : ext.toList.contains '.' = false) :
    strrchrSuffix (x ++ "." ++ ext) = some ext := by
  have hlist : (x ++ "." ++ ext).toList = x.toList ++ '.' :: ext.toList := by
    have h1 : (x ++ "." ++ ext).toList = (x.toList ++ ['.']) ++ ext.toList := rfl
    rw [h1, List.append_assoc]
    rfl
  have hnotdot : ∀ a ∈ ext.toList.reverse, (a != '.') = true := by
    intro a ha
    rw [List.mem_reverse] at ha
    simp only [bne_iff_ne, ne_eq]
    intro hcontra
    rw [hcontra] at ha
    have h2 : ext.toList.contains '.' = true := List.elem_iff.mpr ha
    rw [hext] at h2
    exact absurd h2 (by simp)
  have hcontains : (x ++ "." ++ ext).toList.contains '.' = true := by
    rw [hlist]
    exact List.elem_iff.mpr (by simp)
  unfold strrchrSuffix
  rw [hcontains, if_pos rfl]
  rw [hlist]
  have hrev : (x.toList ++ '.' :: ext.toList).reverse =
      ext.toList.reverse ++ '.' :: x.toList.reverse := by
    simp
  rw [hrev, takeWhile_append_of_all hnotdot (by simp)]
  simp

theorem strrchrSuffix_of_nodot (b : String) (h : b.toList.contains '.' = false) :
    strrchrSuffix b = none := by
  unfold strrchrSuffix
  rw [h]
  simp

/-- The Lean-side statement of the spec's membership language. -/
theorem shouldClobberName_mem (config : Configuration) (b : String) :
    Configuration_shouldClobberName config b = true ↔ b ∈ config.clobberNames :=
  clobberSearch_iff b config.clobberNames

theorem shouldClobberExtension_mem (config : Configuration) (e : String) :
    Configuration_shouldClobberExtension config e = true ↔ e ∈ config.clobberExtensions :=
  clobberSearch_iff e config.clobberExtensions

/-! ## C2: clobber policy -/

/-- C2: for a basename with no `.`, `File_shouldClobber` holds exactly on
literal membership in `clobberNames`; for a basename of the form `x.ext`
with `ext` the (dot-free) substring after the last `.`, it holds exactly
when the basename is in `clobberNames` or `ext` is in `clobberExtensions`;
all comparisons are exact (`strcmp`) and hence case-sensitive. -/
theorem shouldClobber_spec (config : Configuration) (b : String) :
    (b.toList.contains '.' = false →
      (File_shouldClobber config b = true ↔ b ∈ config.clobberNames)) ∧
    (∀ x ext : String, b = x ++ "." ++ ext → ext.toList.contains '.' = false →
      (File_shouldClobber config b = true ↔
        (b ∈ config.clobberNames ∨ ext ∈ config.clobberExtensions))) := by
  constructor
  · intro hnd
    unfold File_shouldClobber
    rw [strrchrSuffix_of_nodot b hnd]
    by_cases h : Configuration_shouldClobberName config b = true
    · simp [h, (shouldClobberName_mem config b).mp h]
    · rw [if_neg h]
      simp only [Bool.false_eq_true, false_iff] at h ⊢
      intro hmem
      exact h ((shouldClobberName_mem config b).mpr hmem)
  · intro x ext hb hext
    subst hb
    unfold File_shouldClobber
    rw [strrchrSuffix_of_split x ext hext]
    by_cases h : Configuration_shouldClobberName config (x ++ "." ++ ext) = true
    · simp [h, (shouldClobberName_mem config _).mp h]
    · rw [if_neg h]
      rw [shouldClobberExtension_mem]
      constructor
      · exact fun hm => Or.inr hm
      · intro hm
        cases hm with
        | inl hn => exact absurd ((shouldClobberName_mem config _).mpr hn) h
        | inr he => exact he

/-- Witness for C2: with `clobberExtensions = ["tmp"]` and
`clobberNames = ["junk"]`, the basename `junk` (no dot) is clobbered by
name, `a.tmp` by extension, and `a.txt` not at all. -/
theorem shouldClobber_spec_witness :
    File_shouldClobber
      { verbose := false, simulate := false, preserveHidden := false,
        preserveSpecial := false, clobberExtensions := ["tmp"],
        clobberNames := ["junk"] } "junk" = true ∧
    File_shouldClobber
      { verbose := false, simulate := false, preserveHidden := false,
        preserveSpecial := false, clobberExtensions := ["tmp"],
        clobberNames := ["junk"] } "a.tmp" = true ∧
    File_shouldClobber
      { verbose := false, simulate := false, preserveHidden := false,
        preserveSpecial := false, clobberExtensions := ["tmp"],
        clobberNames := ["junk"] } "a.txt" = false := by
  refine ⟨?_, ?_, ?_⟩
  · exact ((shouldClobber_spec _ "junk").1 (by decide)).mpr (by decide)
  · exact ((shouldClobber_spec _ "a.tmp").2 "a" "tmp" rfl (by decide)).mpr
      (Or.inr (by decide))
  · have h := (shouldClobber_spec
      { verbose := false, simulate := false, preserveHidden := false,
        preserveSpecial := false, clobberExtensions := ["tmp"],
        clobberNames := ["junk"] } "a.txt").2 "a" "txt" rfl (by decide)
    by_contra hc
    simp only [Bool.not_eq_false] at hc
    have := h.mp hc
    revert this
    decide

/-! ## C5: hidden-name predicate -/

/-- C5 counterexample: the claim says `isHidden(b)` holds only when the
first character of `b` is `.`; the empty basename has no first character at
all, yet `File_isHidden` returns true on it (the `strchrnul` offset is 0 for
the empty string). -/
theorem isHidden_empty_counterexample :
    File_isHidden "" = true ∧ "".toList.head? ≠ some '.' := by
  constructor
  · decide
  · decide

/-- C5 amended: `File_isHidden b` is true iff the first character of `b` is
`.` or `b` is empty. -/
theorem isHidden_amended (b : String) :
    File_isHidden b = true ↔ (b.toList.head? = some '.' ∨ b.toList = []) := by
  unfold File_isHidden
  cases hb : b.toList with
  | nil => simp [strchrnulIdx]
  | cons x rest =>
    by_cases hx : x = '.'
    · simp [strchrnulIdx, hx]
    · have : (x == '.') = false := by simp [hx]
      simp [strchrnulIdx, this, hx]

/-! ## C6: emptiness oracle -/

/-- C6: when the directory can be opened, `Directory_isEmpty` is true iff
the directory has no entries besides the synthesised `.` and `..` (total
`readdir` count at most 2); the counting loop stops as soon as a third
entry is seen; when the directory cannot be opened it logs an error and
returns false. -/
theorem isEmpty_spec (env : Env) (path : Path) :
    (∀ es : Entries, env.openFails.contains path = false →
      ((Directory_isEmpty env path (.dir es)).1 = true ↔ es = .nil)) ∧
    (∀ node : FSNode, opendirNames env path node = none →
      Directory_isEmpty env path node =
        (false, Runtime_putError ("Directory_isEmpty(" ++ pathStr path ++
          "): could not open directory: ERRNO " ++ toString (env.errnoAt path) ++ "\n"))) ∧
    (∀ (a b c : String) (rest : List String), isEmptyCount (a :: b :: c :: rest) 0 = 3) := by
  refine ⟨?_, ?_, ?_⟩
  · intro es h
    unfold Directory_isEmpty opendirNames
    rw [h]
    cases es with
    | nil => simp [Entries.names, isEmptyCount]
    | cons n c rest => simp [Entries.names, isEmptyCount]
  · intro node h
    unfold Directory_isEmpty
    rw [h]
  · intro a b c rest
    simp [isEmptyCount]

/-- Witness for C6: a concrete environment where `x` cannot be opened:
an empty directory tests empty, a one-entry directory does not, and the
failing path yields `(false, error line)`. -/
theorem isEmpty_spec_witness :
    (Directory_isEmpty { openFails := [], unlinkFails := [], errnoAt := fun _ => 13 }
      ["d"] (.dir .nil)).1 = true ∧
    (Directory_isEmpty { openFails := [], unlinkFails := [], errnoAt := fun _ => 13 }
      ["d"] (.dir (.cons "a" (.file .reg) .nil))).1 = false ∧
    Directory_isEmpty { openFails := [["x"]], unlinkFails := [], errnoAt := fun _ => 13 }
      ["x"] (.dir .nil) =
      (false, Runtime_putError
        "Directory_isEmpty(x): could not open directory: ERRNO 13\n") := by
  refine ⟨?_, ?_, ?_⟩
  · exact ((isEmpty_spec { openFails := [], unlinkFails := [], errnoAt := fun _ => 13 }
      ["d"]).1 .nil rfl).mpr rfl
  · have h := (isEmpty_spec { openFails := [], unlinkFails := [], errnoAt := fun _ => 13 }
      ["d"]).1 (.cons "a" (.file .reg) .nil) rfl
    by_contra hc
    simp only [Bool.not_eq_false] at hc
    exact absurd (h.mp hc) (by decide)
  · have h := (isEmpty_spec { openFails := [["x"]], unlinkFails := [], errnoAt := fun _ => 13 }
      ["x"]).2.1 (.dir .nil) rfl
    rw [h]
    rfl

/-! ## C4: the removal dispatcher -/

/-- Concrete configuration (no simulation) for the C4 statements. -/
def c4Cfg : Configuration :=
  { verbose := false, simulate := false, preserveHidden := false,
    preserveSpecial := false, clobberExtensions := [], clobberNames := [] }

/-- Concrete environment for the C4 statements: `unlink("a")` fails and the
OS reports `errno = 13` (`EACCES`). -/
def c4Env : Env := { openFails := [], unlinkFails := [["a"]], errnoAt := fun _ => 13 }

/-- C4 counterexample: on a failing removal, `File_unlink` returns the raw
`unlink`/`rmdir` return value `-1` (as `u32`: `4294967295`), not the OS
error code: here the OS error code is `errno = 13`, and the callers of the
C function indeed compare the result against `-1`, not against an errno
value. -/
theorem unlink_ret_counterexample :
    (File_unlink c4Cfg c4Env ["a"] (.file .reg)).ret = 4294967295 ∧
    c4Env.errnoAt ["a"] = 13 ∧
    (File_unlink c4Cfg c4Env ["a"] (.file .reg)).ret ≠ c4Env.errnoAt ["a"] := by
  refine ⟨rfl, rfl, ?_⟩
  decide

/-- C4 amended: with `simulate = false`, `File_unlink` stats the path and
dispatches to the directory-removal primitive (`rmdir`) when it designates a
directory and to the file-removal primitive (`unlink`) otherwise; the call
returns `0` on success and the primitive's failure indicator `-1` (as `u32`:
`4294967295`) on failure — the OS error code itself is left in `errno` for
the caller. -/
theorem File_unlink_real (config : Configuration) (env : Env) (path : Path) (node : FSNode)
    (h : config.simulate = false) :
    (File_unlink config env path node).prim =
      (if isDirNode node then Prim.rmdirPrim else Prim.unlinkPrim) ∧
    (File_unlink config env path node).ret =
      (if env.unlinkFails.contains path then UMAX else 0) ∧
    (File_unlink config env path node).removed = !env.unlinkFails.contains path := by
  cases node with
  | file t =>
    refine ⟨?_, ?_, ?_⟩ <;>
      · simp only [File_unlink, h, Bool.false_eq_true, if_false, isDirNode]
        split <;> simp_all
  | dir es =>
    refine ⟨?_, ?_, ?_⟩ <;>
      · simp only [File_unlink, h, Bool.false_eq_true, if_false, isDirNode]
        split <;> simp_all

/-- Witness for C4 (amended): concrete dispatch — a directory goes to
`rmdir`, a regular file to `unlink`; the failing path returns `4294967295`,
a succeeding one returns `0`. -/
theorem File_unlink_real_witness :
    (File_unlink c4Cfg c4Env ["d"] (.dir .nil)).prim = Prim.rmdirPrim ∧
    (File_unlink c4Cfg c4Env ["d"] (.dir .nil)).ret = 0 ∧
    (File_unlink c4Cfg c4Env ["a"] (.file .reg)).prim = Prim.unlinkPrim ∧
    (File_unlink c4Cfg c4Env ["a"] (.file .reg)).ret = 4294967295 := by
  have h1 := File_unlink_real c4Cfg c4Env ["d"] (.dir .nil) rfl
  have h2 := File_unlink_real c4Cfg c4Env ["a"] (.file .reg) rfl
  refine ⟨?_, ?_, ?_, ?_⟩
  · rw [h1.1]; rfl
  · rw [h1.2.1]; rfl
  · rw [h2.1]; rfl
  · rw [h2.2.1]; rfl

/-! ## Walker helper lemmas -/

/-- Joint induction over the mutually inductive filesystem tree. -/
theorem fs_mutual_ind (motive1 : FSNode → Prop) (motive2 : Entries → Prop)
    (hfile : ∀ t, motive1 (.file t))
    (hdir : ∀ es, motive2 es → motive1 (.dir es))
    (hnil : motive2 .nil)
    (hcons : ∀ n c rest, motive1 c → motive2 rest → motive2 (.cons n c rest)) :
    (∀ node, motive1 node) ∧ (∀ es, motive2 es) :=
  ⟨fun node => FSNode.rec hfile hdir hnil hcons node,
   fun es => Entries.rec hfile hdir hnil hcons es⟩

/-- The inline `switch` in `Directory_processEntries` agrees with the
standalone `Directory_processEntry`, and the iteration always continues
with the remaining siblings, whatever became of the current entry. -/
theorem Directory_processEntries_cons (config : Configuration) (env : Env) (path : Path)
    (name : String) (child : FSNode) (rest : Entries)
    (h : (name == "." || name == "..") = false) :
    Directory_processEntries config env path (.cons name child rest) =
      (match (Directory_processEntry config env path name child).1 with
       | some child2 => .cons name child2 (Directory_processEntries config env path rest).1
       | none => (Directory_processEntries config env path rest).1,
       (Directory_processEntry config env path name child).2 ++
         (Directory_processEntries config env path rest).2) := by
  simp [Directory_processEntries, Directory_processEntry, h]

/-- A literal `.` or `..` entry is skipped, the iteration continuing with
the remaining siblings. -/
theorem Directory_processEntries_dot (config : Configuration) (env : Env) (path : Path)
    (name : String) (child : FSNode) (rest : Entries)
    (h : (name == "." || name == "..") = true) :
    Directory_processEntries config env path (.cons name child rest) =
      (.cons name child (Directory_processEntries config env path rest).1,
        (Directory_processEntries config env path rest).2) := by
  simp [Directory_processEntries, h]

theorem noErrors_append (a b : List LogLine) :
    noErrors (a ++ b) = (noErrors a && noErrors b) := by
  induction a with
  | nil => simp [noErrors]
  | cons x rest ih =>
    cases x with
    | error m => simp [noErrors]
    | info m => simp [noErrors, ih]

theorem basenameOf_append (p : Path) (n : String) : basenameOf (p ++ [n]) = n := by
  induction p with
  | nil => rfl
  | cons a q ih =>
    cases q with
    | nil => rfl
    | cons b r => simpa [basenameOf] using ih

/-! ## Simulate-mode helpers -/

theorem File_process_sim (config : Configuration) (env : Env) (path : Path) (node : FSNode)
    (h : config.simulate = true) :
    (File_process config env path node).removed = false := by
  unfold File_process
  dsimp only
  split
  · simp [File_unlink, h, UMAX]
  · rfl

theorem afterChild_keep_sim (config : Configuration) (env : Env) (p2 : Path)
    (pr : FSNode × List LogLine × Nat) (h : config.simulate = true) :
    (Directory_afterChild config env p2 pr).1 = some pr.1 := by
  unfold Directory_afterChild
  dsimp only
  split
  · split
    · simp [File_unlink, h]
    · rfl
  · rfl

theorem fileEntry_keep_sim (config : Configuration) (env : Env) (path : Path)
    (name : String) (child : FSNode) (h : config.simulate = true) :
    (Directory_processFileEntry config env path name child).1 = some child := by
  unfold Directory_processFileEntry
  simp [File_process_sim config env (path ++ [name]) child h]

theorem entry_keep_sim (config : Configuration) (env : Env) (path : Path)
    (name : String) (child : FSNode) (h : config.simulate = true)
    (hchild : (Directory_process config env (path ++ [name]) child).1 = child) :
    (Directory_processEntry config env path name child).1 = some child := by
  unfold Directory_processEntry
  cases hdt : dtypeOf child with
  | dir =>
    simp only
    split
    · rfl
    · rw [afterChild_keep_sim config env (path ++ [name]) _ h, hchild]
  | blk =>
    simp only
    split
    · rfl
    · exact fileEntry_keep_sim config env path name child h
  | chr =>
    simp only
    split
    · rfl
    · exact fileEntry_keep_sim config env path name child h
  | fifo =>
    simp only
    split
    · rfl
    · exact fileEntry_keep_sim config env path name child h
  | lnk =>
    simp only
    split
    · rfl
    · exact fileEntry_keep_sim config env path name child h
  | sock =>
    simp only
    split
    · rfl
    · exact fileEntry_keep_sim config env path name child h
  | unknown => exact fileEntry_keep_sim config env path name child h
  | reg => exact fileEntry_keep_sim config env path name child h

/-- In simulate mode the walker changes nothing, at any directory. -/
theorem sim_preserve (config : Configuration) (env : Env) (h : config.simulate = true) :
    (∀ node : FSNode, ∀ path : Path, (Directory_process config env path node).1 = node) ∧
    (∀ es : Entries, ∀ path : Path, (Directory_processEntries config env path es).1 = es) := by
  refine fs_mutual_ind
    (fun node => ∀ path : Path, (Directory_process config env path node).1 = node)
    (fun es => ∀ path : Path, (Directory_processEntries config env path es).1 = es)
    ?_ ?_ ?_ ?_
  · intro t path
    rfl
  · intro es ih path
    unfold Directory_process
    split
    · rfl
    · simp [ih path]
  · intro path
    rfl
  · intro name child rest ih1 ih2 path
    by_cases hd : (name == "." || name == "..") = true
    · rw [Directory_processEntries_dot config env path name child rest hd, ih2 path]
    · rw [Directory_processEntries_cons config env path name child rest
        (by simpa using hd)]
      rw [entry_keep_sim config env path name child h (ih1 (path ++ [name]))]
      simp [ih2 path]

/-- In simulate mode the whole driver loop leaves every root in place. -/
theorem mainLoop_roots_sim (config : Configuration) (env : Env) (h : config.simulate = true) :
    ∀ (roots : List RootArg) (d : Bool),
      (mainLoop config env roots d).1 = roots.map (fun r => some r.node) := by
  intro roots
  induction roots with
  | nil => intro d; rfl
  | cons r rest ih =>
    intro d
    cases hr : r.node with
    | dir es =>
      simp only [mainLoop, hr, List.map_cons]
      rw [(sim_preserve config env h).1 (.dir es)]
      rw [ih]
    | file t =>
      simp only [mainLoop, hr, List.map_cons]
      rw [File_process_sim config env r.path (.file t) h]
      simp [ih]

/-! ## C3: simulate mode is a frame -/

/-- C3: with `simulate = true`, every removal request (the single mutation
point `File_unlink`, used both for clobbered files and for emptied
directories) only emits the log line `unlink(<path>)` and reports success
(returns 0, removes nothing), and a whole run leaves every root exactly as
it was — every entry's existence and type unchanged. -/
theorem simulate_frame (config : Configuration) (env : Env) (h : config.simulate = true) :
    (∀ (path : Path) (node : FSNode),
      File_unlink config env path node =
        { removed := false, logs := [.error ("unlink(" ++ pathStr path ++ ")\n")],
          ret := 0, prim := .nonePrim }) ∧
    (∀ roots : List RootArg,
      (scrubMain config env roots).roots = roots.map (fun r => some r.node)) := by
  constructor
  · intro path node
    simp [File_unlink, h, Runtime_putError]
  · intro roots
    unfold scrubMain
    simpa using mainLoop_roots_sim config env h roots false

/-- Witness for C3: a simulated run over the cascade tree
`root/a/b/file.tmp` (with `.tmp` clobbered) leaves the tree untouched, and
the unlink request on a sample path logs exactly its line. -/
theorem simulate_frame_witness :
    (scrubMain
      { verbose := false, simulate := true, preserveHidden := false,
        preserveSpecial := false, clobberExtensions := ["tmp"], clobberNames := [] }
      { openFails := [], unlinkFails := [], errnoAt := fun _ => 13 }
      [⟨["root"],
        .dir (.cons "a" (.dir (.cons "b"
          (.dir (.cons "file.tmp" (.file .reg) .nil)) .nil)) .nil)⟩]).roots =
      [some (.dir (.cons "a" (.dir (.cons "b"
        (.dir (.cons "file.tmp" (.file .reg) .nil)) .nil)) .nil))] ∧
    File_unlink
      { verbose := false, simulate := true, preserveHidden := false,
        preserveSpecial := false, clobberExtensions := ["tmp"], clobberNames := [] }
      { openFails := [], unlinkFails := [], errnoAt := fun _ => 13 }
      ["root", "a", "b", "file.tmp"] (.file .reg) =
      { removed := false,
        logs := [.error "unlink(root/a/b/file.tmp)\n"],
        ret := 0, prim := .nonePrim } := by
  have h := simulate_frame
    { verbose := false, simulate := true, preserveHidden := false,
      preserveSpecial := false, clobberExtensions := ["tmp"], clobberNames := [] }
    { openFails := [], unlinkFails := [], errnoAt := fun _ => 13 } rfl
  constructor
  · rw [h.2]
    rfl
  · rw [h.1]
    rfl

/-! ## C7: local error recovery in the walker -/

/-- C7: `Directory_process` returns an error — the `opendir` errno — only
when the directory itself cannot be opened; otherwise it returns `ENONE`
whatever happened inside.  A failed child recursion is logged and the child
kept; a failed file removal makes `File_process` log and return the errno,
which the walker at most logs verbosely; and the iteration always continues
with the remaining siblings (`Directory_processEntries` on a cons always
processes the rest). -/
theorem process_error_spec (config : Configuration) (env : Env) (path : Path) :
    (∀ es : Entries, env.openFails.contains path = true →
      Directory_process config env path (.dir es) = (.dir es, [], env.errnoAt path)) ∧
    (∀ es : Entries, env.openFails.contains path = false →
      (Directory_process config env path (.dir es)).2.2 = ENONE) ∧
    (∀ (child2 : FSNode) (logs1 : List LogLine) (st : Nat), (st == ENONE) = false →
      Directory_afterChild config env path (child2, logs1, st) =
        (some child2,
          logs1 ++ Runtime_putError ("Could not process directory " ++ pathStr path ++
            ": ERRNO " ++ toString st ++ "\n"))) ∧
    (∀ node : FSNode, config.simulate = false → env.unlinkFails.contains path = true →
      File_shouldClobber config (basenameOf path) = true →
      (File_process config env path node).ret = env.errnoAt path ∧
      (File_process config env path node).logs =
        Runtime_putError ("Could not unlink " ++ pathStr path ++ ": ERRNO " ++
          toString (env.errnoAt path) ++ "\n")) ∧
    (∀ (name : String) (child : FSNode) (rest : Entries),
      (name == "." || name == "..") = false →
      Directory_processEntries config env path (.cons name child rest) =
        (match (Directory_processEntry config env path name child).1 with
         | some child2 => .cons name child2 (Directory_processEntries config env path rest).1
         | none => (Directory_processEntries config env path rest).1,
         (Directory_processEntry config env path name child).2 ++
           (Directory_processEntries config env path rest).2)) := by
  refine ⟨?_, ?_, ?_, ?_, ?_⟩
  · intro es h
    unfold Directory_process
    rw [h]
    simp
  · intro es h
    unfold Directory_process
    rw [h]
    simp
  · intro child2 logs1 st hst
    unfold Directory_afterChild
    dsimp only
    rw [hst]
    simp
  · intro node hsim hfail hclob
    unfold File_process
    dsimp only
    rw [hclob, if_pos rfl]
    have hm : path ∈ env.unlinkFails := List.elem_iff.mp hfail
    cases node with
    | file t => simp [File_unlink, hsim, hm, UMAX, Runtime_putError]
    | dir es => simp [File_unlink, hsim, hm, UMAX, Runtime_putError]
  · intro name child rest h
    exact Directory_processEntries_cons config env path name child rest h

/-- Witness for C7: with `unlink` failing on `r/junk` (errno 13) and `r/sub`
unopenable, the walk over `r` still returns `ENONE`, while the walk on a
directory that cannot be opened returns its errno. -/
theorem process_error_spec_witness :
    (Directory_process
      { verbose := false, simulate := false, preserveHidden := false,
        preserveSpecial := false, clobberExtensions := [], clobberNames := ["junk"] }
      { openFails := [["r", "sub"]], unlinkFails := [["r", "junk"]], errnoAt := fun _ => 13 }
      ["r"]
      (.dir (.cons "junk" (.file .reg) (.cons "sub" (.dir .nil) .nil)))).2.2 = ENONE ∧
    Directory_process
      { verbose := false, simulate := false, preserveHidden := false,
        preserveSpecial := false, clobberExtensions := [], clobberNames := ["junk"] }
      { openFails := [["r", "sub"]], unlinkFails := [["r", "junk"]], errnoAt := fun _ => 13 }
      ["r", "sub"] (.dir .nil) = (.dir .nil, [], 13) := by
  constructor
  · exact (process_error_spec
      { verbose := false, simulate := false, preserveHidden := false,
        preserveSpecial := false, clobberExtensions := [], clobberNames := ["junk"] }
      { openFails := [["r", "sub"]], unlinkFails := [["r", "junk"]], errnoAt := fun _ => 13 }
      ["r"]).2.1 _ rfl
  · exact (process_error_spec
      { verbose := false, simulate := false, preserveHidden := false,
        preserveSpecial := false, clobberExtensions := [], clobberNames := ["junk"] }
      { openFails := [["r", "sub"]], unlinkFails := [["r", "junk"]], errnoAt := fun _ => 13 }
      ["r", "sub"]).1 .nil rfl

/-! ## C1: emptied child directories are collapsed by emptiness alone -/

/-- C1: after a child recursion returns ok (`ENONE`), the walker consults
only the emptiness oracle: an empty child is handed to `File_unlink`
directly — the clobber policy is never consulted, as witnessed by the
removal outcome being identical under any configuration with the same
`simulate` flag — a failed removal is logged while the entry stays and the
parent result is unaffected (the parent still returns `ENONE`); a non-empty
child is kept. -/
theorem collapse_by_emptiness (config : Configuration) (env : Env) (p2 : Path)
    (child2 : FSNode) (logs1 : List LogLine) :
    ((Directory_isEmpty env p2 child2).1 = true →
      (Directory_afterChild config env p2 (child2, logs1, ENONE)).1 =
        (if (File_unlink config env p2 child2).removed then none else some child2)) ∧
    ((Directory_isEmpty env p2 child2).1 = true →
      (File_unlink config env p2 child2).ret = UMAX →
      (Directory_afterChild config env p2 (child2, logs1, ENONE)).2 =
        logs1 ++ (Directory_isEmpty env p2 child2).2 ++ (File_unlink config env p2 child2).logs ++
          Runtime_putError ("Could not unlink directory " ++ pathStr p2 ++ ": ERRNO " ++
            toString (env.errnoAt p2) ++ "\n")) ∧
    (∀ cfg2 : Configuration, cfg2.simulate = config.simulate →
      (Directory_afterChild cfg2 env p2 (child2, logs1, ENONE)).1 =
        (Directory_afterChild config env p2 (child2, logs1, ENONE)).1) ∧
    ((Directory_isEmpty env p2 child2).1 = false →
      (Directory_afterChild config env p2 (child2, logs1, ENONE)).1 = some child2) ∧
    (∀ (path : Path) (name : String) (ces : Entries),
      (config.preserveHidden && File_isHidden name) = false →
      Directory_processEntry config env path name (.dir ces) =
        Directory_afterChild config env (path ++ [name])
          (Directory_process config env (path ++ [name]) (.dir ces))) ∧
    (∀ (path : Path) (name : String) (child : FSNode) (rest : Entries),
      env.openFails.contains path = false →
      (Directory_process config env path (.dir (.cons name child rest))).2.2 = ENONE) := by
  refine ⟨?_, ?_, ?_, ?_, ?_, ?_⟩
  · intro hemp
    simp [Directory_afterChild, hemp]
  · intro hemp hret
    simp [Directory_afterChild, hemp, hret, UMAX]
  · intro cfg2 hsim
    have hul : File_unlink cfg2 env p2 child2 = File_unlink config env p2 child2 := by
      unfold File_unlink
      rw [hsim]
    unfold Directory_afterChild
    dsimp only
    rw [hul]
    cases hie : (Directory_isEmpty env p2 child2).1 <;> simp [hie]
  · intro hemp
    simp [Directory_afterChild, hemp]
  · intro path name ces hskip
    unfold Directory_processEntry
    simp [dtypeOf, hskip]
  · intro path name child rest h
    unfold Directory_process
    rw [h]
    simp

/-- Witness for C1: under a no-failure environment, the emptied child
`r/d` is removed although `d` matches no clobber rule; under an environment
where `rmdir(r/d)` fails, the entry stays and the failure line is emitted;
a non-empty child is kept. -/
theorem collapse_by_emptiness_witness :
    ((Directory_afterChild
      { verbose := false, simulate := false, preserveHidden := false,
        preserveSpecial := false, clobberExtensions := [], clobberNames := [] }
      { openFails := [], unlinkFails := [], errnoAt := fun _ => 13 }
      ["r", "d"] (.dir .nil, [], ENONE)).1 = none) ∧
    File_shouldClobber
      { verbose := false, simulate := false, preserveHidden := false,
        preserveSpecial := false, clobberExtensions := [], clobberNames := [] } "d" = false ∧
    ((Directory_afterChild
      { verbose := false, simulate := false, preserveHidden := false,
        preserveSpecial := false, clobberExtensions := [], clobberNames := [] }
      { openFails := [], unlinkFails := [["r", "d"]], errnoAt := fun _ => 13 }
      ["r", "d"] (.dir .nil, [], ENONE)) =
      (some (.dir .nil),
        Runtime_putError "Could not unlink directory r/d: ERRNO 13\n")) ∧
    ((Directory_afterChild
      { verbose := false, simulate := false, preserveHidden := false,
        preserveSpecial := false, clobberExtensions := [], clobberNames := [] }
      { openFails := [], unlinkFails := [], errnoAt := fun _ => 13 }
      ["r", "d"] (.dir (.cons "x" (.file .reg) .nil), [], ENONE)).1 =
      some (.dir (.cons "x" (.file .reg) .nil))) := by
  refine ⟨?_, by decide, ?_, ?_⟩
  · have h := (collapse_by_emptiness
      { verbose := false, simulate := false, preserveHidden := false,
        preserveSpecial := false, clobberExtensions := [], clobberNames := [] }
      { openFails := [], unlinkFails := [], errnoAt := fun _ => 13 }
      ["r", "d"] (.dir .nil) []).1 rfl
    rw [h]
    rfl
  · have h1 := (collapse_by_emptiness
      { verbose := false, simulate := false, preserveHidden := false,
        preserveSpecial := false, clobberExtensions := [], clobberNames := [] }
      { openFails := [], unlinkFails := [["r", "d"]], errnoAt := fun _ => 13 }
      ["r", "d"] (.dir .nil) []).1 rfl
    have h2 := (collapse_by_emptiness
      { verbose := false, simulate := false, preserveHidden := false,
        preserveSpecial := false, clobberExtensions := [], clobberNames := [] }
      { openFails := [], unlinkFails := [["r", "d"]], errnoAt := fun _ => 13 }
      ["r", "d"] (.dir .nil) []).2.1 rfl rfl
    have hp : (Directory_afterChild
      { verbose := false, simulate := false, preserveHidden := false,
        preserveSpecial := false, clobberExtensions := [], clobberNames := [] }
      { openFails := [], unlinkFails := [["r", "d"]], errnoAt := fun _ => 13 }
      ["r", "d"] (.dir .nil, [], ENONE)) =
      ((Directory_afterChild
        { verbose := false, simulate := false, preserveHidden := false,
          preserveSpecial := false, clobberExtensions := [], clobberNames := [] }
        { openFails := [], unlinkFails := [["r", "d"]], errnoAt := fun _ => 13 }
        ["r", "d"] (.dir .nil, [], ENONE)).1,
       (Directory_afterChild
        { verbose := false, simulate := false, preserveHidden := false,
          preserveSpecial := false, clobberExtensions := [], clobberNames := [] }
        { openFails := [], unlinkFails := [["r", "d"]], errnoAt := fun _ => 13 }
        ["r", "d"] (.dir .nil, [], ENONE)).2) := rfl
    rw [hp, h1, h2]
    rfl
  · have h := (collapse_by_emptiness
      { verbose := false, simulate := false, preserveHidden := false,
        preserveSpecial := false, clobberExtensions := [], clobberNames := [] }
      { openFails := [], unlinkFails := [], errnoAt := fun _ => 13 }
      ["r", "d"] (.dir (.cons "x" (.file .reg) .nil)) []).2.2.2.1 rfl
    rw [h]

/-! ## C8: exit status -/

/-- A root is counted dirty by the driver: it is a directory whose
post-processing emptiness check comes back false. -/
def rootDirty (config : Configuration) (env : Env) (r : RootArg) : Bool :=
  match r.node with
  | .dir es =>
    !(Directory_isEmpty env r.path (Directory_process config env r.path (.dir es)).1).1
  | .file _ => false

theorem mainLoop_dirty (config : Configuration) (env : Env) :
    ∀ (roots : List RootArg) (d : Bool),
      (mainLoop config env roots d).2.2 = (d || roots.any (rootDirty config env)) := by
  intro roots
  induction roots with
  | nil =>
    intro d
    simp [mainLoop]
  | cons r rest ih =>
    intro d
    cases hr : r.node with
    | dir es =>
      simp only [mainLoop, hr, List.any_cons]
      rw [ih]
      simp only [rootDirty, hr]
      cases hie : (Directory_isEmpty env r.path
          (Directory_process config env r.path (.dir es)).1).1 with
      | true => simp [hie]
      | false => simp [hie]
    | file t =>
      simp only [mainLoop, hr, List.any_cons]
      rw [ih]
      simp [rootDirty, hr]

/-- C8: the process exit status is `ENONE` (0) when no processed directory
root remains non-empty, and `ENOTEMPTY` when at least one directory root
fails the post-processing emptiness check; non-directory roots never count. -/
theorem exit_code_spec (config : Configuration) (env : Env) (roots : List RootArg) :
    (scrubMain config env roots).exitCode =
      (if roots.any (rootDirty config env) then ENOTEMPTY else ENONE) := by
  unfold scrubMain
  simp only
  rw [mainLoop_dirty config env roots false]
  simp

/-! ## C10: non-directory roots never affect the exit status -/

/-- C10: for roots that are not directories the `File_process` outcome is
discarded and the dirty flag untouched, so a run whose roots are all
non-directories exits with `ENONE` — whatever the environment does to the
removals. -/
theorem file_roots_exit_clean (config : Configuration) (env : Env) (roots : List RootArg)
    (h : roots.all (fun r => !isDirNode r.node) = true) :
    (scrubMain config env roots).exitCode = ENONE := by
  unfold scrubMain
  simp only
  rw [mainLoop_dirty config env roots false]
  have hany : roots.any (rootDirty config env) = false := by
    rw [List.any_eq_false]
    intro r hr
    have hall := List.all_eq_true.mp h r hr
    cases hn : r.node with
    | dir es =>
      rw [hn] at hall
      simp [isDirNode] at hall
    | file t =>
      simp [rootDirty, hn]
  rw [hany]
  rfl

/-- Witness for C10: a single regular-file root matching a clobber rule,
whose removal fails (errno 13), still exits with status 0. -/
theorem file_roots_exit_clean_witness :
    (scrubMain
      { verbose := false, simulate := false, preserveHidden := false,
        preserveSpecial := false, clobberExtensions := ["tmp"], clobberNames := [] }
      { openFails := [], unlinkFails := [["a.tmp"]], errnoAt := fun _ => 13 }
      [⟨["a.tmp"], .file .reg⟩]).exitCode = ENONE ∧
    (File_process
      { verbose := false, simulate := false, preserveHidden := false,
        preserveSpecial := false, clobberExtensions := ["tmp"], clobberNames := [] }
      { openFails := [], unlinkFails := [["a.tmp"]], errnoAt := fun _ => 13 }
      ["a.tmp"] (.file .reg)).ret = 13 := by
  constructor
  · exact file_roots_exit_clean
      { verbose := false, simulate := false, preserveHidden := false,
        preserveSpecial := false, clobberExtensions := ["tmp"], clobberNames := [] }
      { openFails := [], unlinkFails := [["a.tmp"]], errnoAt := fun _ => 13 }
      [⟨["a.tmp"], .file .reg⟩] rfl
  · rfl

/-! ## Idempotence helpers (ideal environment: no OS failures) -/

/-- The contents of a node are scrubbed (trivial for non-directories). -/
def scrubbedInside (config : Configuration) : FSNode → Bool
  | .file _ => true
  | .dir es => scrubbedEntries config es

theorem noErrors_verbose (config : Configuration) (m : String) :
    noErrors (Runtime_verbose config m) = true := by
  unfold Runtime_verbose
  split <;> rfl

theorem isEmpty_ideal (env : Env) (p : Path) (ces : Entries)
    (h : env.openFails.contains p = false) :
    Directory_isEmpty env p (.dir ces) = (ces.isNil, []) := by
  unfold Directory_isEmpty opendirNames
  rw [h]
  cases ces with
  | nil => rfl
  | cons n c rest => rfl

theorem unlink_ideal (config : Configuration) (env : Env) (path : Path) (node : FSNode)
    (hsim : config.simulate = false) (hU : env.unlinkFails = []) :
    (File_unlink config env path node).removed = true ∧
    (File_unlink config env path node).ret = 0 ∧
    (File_unlink config env path node).logs = [] := by
  unfold File_unlink
  rw [hsim, hU]
  cases node <;> exact ⟨rfl, rfl, rfl⟩

theorem fproc_ideal (config : Configuration) (env : Env) (p2 : Path) (node : FSNode)
    (hsim : config.simulate = false) (hU : env.unlinkFails = []) :
    File_process config env p2 node =
      (if File_shouldClobber config (basenameOf p2) then
        { removed := true, logs := [], ret := ENONE }
       else { removed := false, logs := [], ret := ENONE }) := by
  have hu := unlink_ideal config env p2 node hsim hU
  unfold File_process
  dsimp only
  by_cases hc : File_shouldClobber config (basenameOf p2) = true
  · rw [if_pos hc, if_pos hc]
    have hret : ((File_unlink config env p2 node).ret == UMAX) = false := by
      rw [hu.2.1]
      rfl
    rw [hret]
    simp [hu.1, hu.2.2]
  · rw [if_neg hc, if_neg hc]

theorem afterChild_ok_empty (config : Configuration) (env : Env) (p2 : Path)
    (c2n : FSNode) (logs1 : List LogLine)
    (hemp : (Directory_isEmpty env p2 c2n).1 = true) :
    Directory_afterChild config env p2 (c2n, logs1, ENONE) =
      (if (File_unlink config env p2 c2n).removed then none else some c2n,
       logs1 ++ (Directory_isEmpty env p2 c2n).2 ++ (File_unlink config env p2 c2n).logs ++
         (if ((File_unlink config env p2 c2n).ret == UMAX) = true then
            Runtime_putError ("Could not unlink directory " ++ pathStr p2 ++ ": ERRNO " ++
              toString (env.errnoAt p2) ++ "\n")
          else [])) := by
  unfold Directory_afterChild
  dsimp only
  rw [hemp]
  simp

theorem afterChild_ok_nonempty (config : Configuration) (env : Env) (p2 : Path)
    (c2n : FSNode) (logs1 : List LogLine)
    (hemp : (Directory_isEmpty env p2 c2n).1 = false) :
    Directory_afterChild config env p2 (c2n, logs1, ENONE) =
      (some c2n, logs1 ++ (Directory_isEmpty env p2 c2n).2 ++
        Runtime_verbose config ("Directory " ++ pathStr p2 ++
          " is not empty. Not unlinking.\n")) := by
  unfold Directory_afterChild
  dsimp only
  rw [hemp]
  simp

/-- The shape of an opened `Directory_process` call on a directory node. -/
theorem process_open_ok (config : Configuration) (env : Env) (p : Path) (es : Entries)
    (h : env.openFails.contains p = false) :
    Directory_process config env p (.dir es) =
      (.dir (Directory_processEntries config env p es).1,
       (Directory_processEntries config env p es).2, ENONE) := by
  unfold Directory_process
  rw [h]
  rfl

/-- A surviving regular-file entry did not match the clobber policy. -/
theorem fileEntry_establish (config : Configuration) (env : Env) (path : Path)
    (name : String) (t : DType)
    (hsim : config.simulate = false) (hU : env.unlinkFails = []) :
    ∀ c2 : FSNode, (Directory_processFileEntry config env path name (.file t)).1 = some c2 →
      c2 = .file t ∧ File_shouldClobber config name = false := by
  intro c2 hc2
  unfold Directory_processFileEntry at hc2
  dsimp only at hc2
  rw [fproc_ideal config env (path ++ [name]) (.file t) hsim hU,
    basenameOf_append path name] at hc2
  by_cases hc : File_shouldClobber config name = true
  · rw [if_pos hc] at hc2
    simp at hc2
  · rw [if_neg hc] at hc2
    simp at hc2
    exact ⟨hc2.symm, by simpa using hc⟩

/-- Phase A, per entry: whatever survives one entry step is well formed and
scrubbed. -/
theorem entry_establish (config : Configuration) (env : Env) (path : Path)
    (name : String) (child : FSNode)
    (hsim : config.simulate = false) (hO : env.openFails = []) (hU : env.unlinkFails = [])
    (hwfc : wfNode child = true)
    (hrec : wfNode (Directory_process config env (path ++ [name]) child).1 = true ∧
      scrubbedInside config (Directory_process config env (path ++ [name]) child).1 = true) :
    ∀ c2 : FSNode, (Directory_processEntry config env path name child).1 = some c2 →
      wfNode c2 = true ∧ scrubbedNode config name c2 = true := by
  intro c2 hc2
  have hcon : ∀ p : Path, env.openFails.contains p = false := fun p => by rw [hO]; rfl
  cases child with
  | dir ces =>
    unfold Directory_processEntry at hc2
    dsimp only [dtypeOf] at hc2
    by_cases hskip : (config.preserveHidden && File_isHidden name) = true
    · rw [if_pos hskip] at hc2
      simp only [Option.some.injEq] at hc2
      subst hc2
      exact ⟨hwfc, by simp [scrubbedNode, hskip]⟩
    · rw [if_neg hskip] at hc2
      rw [process_open_ok config env (path ++ [name]) ces (hcon _)] at hc2 hrec
      set es2 := (Directory_processEntries config env (path ++ [name]) ces).1 with hes2
      have hie := isEmpty_ideal env (path ++ [name]) es2 (hcon _)
      cases hnil : es2.isNil with
      | true =>
        rw [afterChild_ok_empty config env (path ++ [name]) (.dir es2) _
          (by rw [hie, hnil])] at hc2
        rw [(unlink_ideal config env (path ++ [name]) (.dir es2) hsim hU).1] at hc2
        simp at hc2
      | false =>
        rw [afterChild_ok_nonempty config env (path ++ [name]) (.dir es2) _
          (by rw [hie, hnil])] at hc2
        simp only [Option.some.injEq] at hc2
        subst hc2
        refine ⟨hrec.1, ?_⟩
        have hsc : scrubbedEntries config es2 = true := hrec.2
        simp [scrubbedNode, hsc, hnil]
  | file t =>
    cases t with
    | dir => simp [wfNode] at hwfc
    | reg =>
      unfold Directory_processEntry at hc2
      dsimp only [dtypeOf] at hc2
      obtain ⟨heq, hnc⟩ := fileEntry_establish config env path name .reg hsim hU c2 hc2
      subst heq
      exact ⟨hwfc, by simp [scrubbedNode, hnc]⟩
    | unknown =>
      unfold Directory_processEntry at hc2
      dsimp only [dtypeOf] at hc2
      obtain ⟨heq, hnc⟩ := fileEntry_establish config env path name .unknown hsim hU c2 hc2
      subst heq
      exact ⟨hwfc, by simp [scrubbedNode, hnc]⟩
    | blk =>
      unfold Directory_processEntry at hc2
      dsimp only [dtypeOf] at hc2
      by_cases hps : config.preserveSpecial = true
      · rw [if_pos hps] at hc2
        simp only [Option.some.injEq] at hc2
        subst hc2
        exact ⟨hwfc, by simp [scrubbedNode, DType.isSpecial, hps]⟩
      · rw [if_neg hps] at hc2
        obtain ⟨heq, hnc⟩ := fileEntry_establish config env path name .blk hsim hU c2 hc2
        subst heq
        exact ⟨hwfc, by simp [scrubbedNode, hnc]⟩
    | chr =>
      unfold Directory_processEntry at hc2
      dsimp only [dtypeOf] at hc2
      by_cases hps : config.preserveSpecial = true
      · rw [if_pos hps] at hc2
        simp only [Option.some.injEq] at hc2
        subst hc2
        exact ⟨hwfc, by simp [scrubbedNode, DType.isSpecial, hps]⟩
      · rw [if_neg hps] at hc2
        obtain ⟨heq, hnc⟩ := fileEntry_establish config env path name .chr hsim hU c2 hc2
        subst heq
        exact ⟨hwfc, by simp [scrubbedNode, hnc]⟩
    | fifo =>
      unfold Directory_processEntry at hc2
      dsimp only [dtypeOf] at hc2
      by_cases hps : config.preserveSpecial = true
      · rw [if_pos hps] at hc2
        simp only [Option.some.injEq] at hc2
        subst hc2
        exact ⟨hwfc, by simp [scrubbedNode, DType.isSpecial, hps]⟩
      · rw [if_neg hps] at hc2
        obtain ⟨heq, hnc⟩ := fileEntry_establish config env path name .fifo hsim hU c2 hc2
        subst heq
        exact ⟨hwfc, by simp [scrubbedNode, hnc]⟩
    | lnk =>
      unfold Directory_processEntry at hc2
      dsimp only [dtypeOf] at hc2
      by_cases hps : config.preserveSpecial = true
      · rw [if_pos hps] at hc2
        simp only [Option.some.injEq] at hc2
        subst hc2
        exact ⟨hwfc, by simp [scrubbedNode, DType.isSpecial, hps]⟩
      · rw [if_neg hps] at hc2
        obtain ⟨heq, hnc⟩ := fileEntry_establish config env path name .lnk hsim hU c2 hc2
        subst heq
        exact ⟨hwfc, by simp [scrubbedNode, hnc]⟩
    | sock =>
      unfold Directory_processEntry at hc2
      dsimp only [dtypeOf] at hc2
      by_cases hps : config.preserveSpecial = true
      · rw [if_pos hps] at hc2
        simp only [Option.some.injEq] at hc2
        subst hc2
        exact ⟨hwfc, by simp [scrubbedNode, DType.isSpecial, hps]⟩
      · rw [if_neg hps] at hc2
        obtain ⟨heq, hnc⟩ := fileEntry_establish config env path name .sock hsim hU c2 hc2
        subst heq
        exact ⟨hwfc, by simp [scrubbedNode, hnc]⟩

/-- Phase A: one (real, no-OS-failure) run leaves every directory with well
formed, scrubbed contents. -/
theorem scrub_establishes (config : Configuration) (env : Env)
    (hsim : config.simulate = false) (hO : env.openFails = []) (hU : env.unlinkFails = []) :
    (∀ node : FSNode, ∀ path : Path, wfNode node = true →
      wfNode (Directory_process config env path node).1 = true ∧
      scrubbedInside config (Directory_process config env path node).1 = true) ∧
    (∀ es : Entries, ∀ path : Path, wfEntries es = true →
      wfEntries (Directory_processEntries config env path es).1 = true ∧
      scrubbedEntries config (Directory_processEntries config env path es).1 = true) := by
  have hcon : ∀ p : Path, env.openFails.contains p = false := fun p => by rw [hO]; rfl
  refine fs_mutual_ind
    (fun node => ∀ path : Path, wfNode node = true →
      wfNode (Directory_process config env path node).1 = true ∧
      scrubbedInside config (Directory_process config env path node).1 = true)
    (fun es => ∀ path : Path, wfEntries es = true →
      wfEntries (Directory_processEntries config env path es).1 = true ∧
      scrubbedEntries config (Directory_processEntries config env path es).1 = true)
    ?_ ?_ ?_ ?_
  · intro t path hwf
    exact ⟨hwf, rfl⟩
  · intro es ih path hwf
    rw [process_open_ok config env path es (hcon path)]
    exact ih path hwf
  · intro path _
    exact ⟨rfl, rfl⟩
  · intro name child rest ih1 ih2 path hwf
    have hw : ((name == "." || name == "..") = false ∧ wfNode child = true) ∧
        wfEntries rest = true := by
      simpa [wfEntries, Bool.and_eq_true, Bool.not_eq_true'] using hwf
    obtain ⟨⟨hdot, hwfc⟩, hwfr⟩ := hw
    have hrest := ih2 path hwfr
    rw [Directory_processEntries_cons config env path name child rest hdot]
    cases he : (Directory_processEntry config env path name child).1 with
    | none =>
      exact ⟨hrest.1, hrest.2⟩
    | some c2 =>
      have hc2 := entry_establish config env path name child hsim hO hU hwfc
        (ih1 (path ++ [name]) hwfc) c2 he
      constructor
      · simp [wfEntries, hdot, hc2.1, hrest.1]
      · simp [scrubbedEntries, hc2.2, hrest.2]

/-- Phase B, file entries: an unclobbered file entry is a no-op. -/
theorem fileEntry_fixpoint (config : Configuration) (env : Env) (path : Path)
    (name : String) (t : DType)
    (hsim : config.simulate = false) (hU : env.unlinkFails = [])
    (hnc : File_shouldClobber config name = false) :
    Directory_processFileEntry config env path name (.file t) = (some (.file t), []) := by
  unfold Directory_processFileEntry
  dsimp only
  rw [fproc_ideal config env (path ++ [name]) (.file t) hsim hU,
    basenameOf_append path name]
  simp [hnc]

/-- Phase B, per entry: a scrubbed entry survives unchanged with no error
output. -/
theorem entry_fixpoint (config : Configuration) (env : Env) (path : Path)
    (name : String) (child : FSNode)
    (hsim : config.simulate = false) (hO : env.openFails = []) (hU : env.unlinkFails = [])
    (hwfc : wfNode child = true)
    (hscn : scrubbedNode config name child = true)
    (hrec : wfNode child = true → scrubbedInside config child = true →
      isDirNode child = true →
      (Directory_process config env (path ++ [name]) child).1 = child ∧
      noErrors (Directory_process config env (path ++ [name]) child).2.1 = true ∧
      (Directory_process config env (path ++ [name]) child).2.2 = ENONE) :
    (Directory_processEntry config env path name child).1 = some child ∧
    noErrors (Directory_processEntry config env path name child).2 = true := by
  have hcon : ∀ p : Path, env.openFails.contains p = false := fun p => by rw [hO]; rfl
  cases child with
  | dir ces =>
    unfold Directory_processEntry
    dsimp only [dtypeOf]
    by_cases hskip : (config.preserveHidden && File_isHidden name) = true
    · rw [if_pos hskip]
      exact ⟨rfl, rfl⟩
    · rw [if_neg hskip]
      have hsd : scrubbedEntries config ces = true ∧ ces.isNil = false := by
        simpa [scrubbedNode, hskip, Bool.and_eq_true, Bool.not_eq_true'] using hscn
      obtain ⟨h1, h2, h3⟩ := hrec hwfc (by simpa [scrubbedInside] using hsd.1) rfl
      have hpr : Directory_process config env (path ++ [name]) (.dir ces) =
          ((.dir ces : FSNode),
           (Directory_process config env (path ++ [name]) (.dir ces)).2.1, ENONE) :=
        Prod.ext h1 (Prod.ext rfl h3)
      rw [hpr, afterChild_ok_nonempty config env (path ++ [name]) (.dir ces) _
        (by rw [isEmpty_ideal env (path ++ [name]) ces (hcon _)]; exact hsd.2)]
      refine ⟨rfl, ?_⟩
      rw [isEmpty_ideal env (path ++ [name]) ces (hcon _)]
      simp [noErrors_append, h2, noErrors_verbose]
  | file t =>
    have hnotdir : t ≠ DType.dir := by
      intro hcontra
      rw [hcontra] at hwfc
      simp [wfNode] at hwfc
    have hfile : DType.isSpecial t = false →
        (Directory_processEntry config env path name (.file t)).1 = some (.file t) ∧
        noErrors (Directory_processEntry config env path name (.file t)).2 = true := by
      intro hsp
      have hnc : File_shouldClobber config name = false := by
        simpa [scrubbedNode, hsp] using hscn
      cases t with
      | dir => exact absurd rfl hnotdir
      | reg =>
        unfold Directory_processEntry
        dsimp only [dtypeOf]
        rw [fileEntry_fixpoint config env path name _ hsim hU hnc]
        exact ⟨rfl, rfl⟩
      | unknown =>
        unfold Directory_processEntry
        dsimp only [dtypeOf]
        rw [fileEntry_fixpoint config env path name _ hsim hU hnc]
        exact ⟨rfl, rfl⟩
      | blk => simp [DType.isSpecial] at hsp
      | chr => simp [DType.isSpecial] at hsp
      | fifo => simp [DType.isSpecial] at hsp
      | lnk => simp [DType.isSpecial] at hsp
      | sock => simp [DType.isSpecial] at hsp
    have hspecial : DType.isSpecial t = true →
        (Directory_processEntry config env path name (.file t)).1 = some (.file t) ∧
        noErrors (Directory_processEntry config env path name (.file t)).2 = true := by
      intro hsp
      by_cases hps : config.preserveSpecial = true
      · cases t with
        | blk =>
          unfold Directory_processEntry
          dsimp only [dtypeOf]
          rw [if_pos hps]
          exact ⟨rfl, rfl⟩
        | chr =>
          unfold Directory_processEntry
          dsimp only [dtypeOf]
          rw [if_pos hps]
          exact ⟨rfl, rfl⟩
        | fifo =>
          unfold Directory_processEntry
          dsimp only [dtypeOf]
          rw [if_pos hps]
          exact ⟨rfl, rfl⟩
        | lnk =>
          unfold Directory_processEntry
          dsimp only [dtypeOf]
          rw [if_pos hps]
          exact ⟨rfl, rfl⟩
        | sock =>
          unfold Directory_processEntry
          dsimp only [dtypeOf]
          rw [if_pos hps]
          exact ⟨rfl, rfl⟩
        | dir => simp [DType.isSpecial] at hsp
        | reg => simp [DType.isSpecial] at hsp
        | unknown => simp [DType.isSpecial] at hsp
      · have hps2 : config.preserveSpecial = false := by
          simpa using hps
        have hnc : File_shouldClobber config name = false := by
          simpa [scrubbedNode, hps2] using hscn
        cases t with
        | blk =>
          unfold Directory_processEntry
          dsimp only [dtypeOf]
          rw [if_neg hps, fileEntry_fixpoint config env path name _ hsim hU hnc]
          exact ⟨rfl, rfl⟩
        | chr =>
          unfold Directory_processEntry
          dsimp only [dtypeOf]
          rw [if_neg hps, fileEntry_fixpoint config env path name _ hsim hU hnc]
          exact ⟨rfl, rfl⟩
        | fifo =>
          unfold Directory_processEntry
          dsimp only [dtypeOf]
          rw [if_neg hps, fileEntry_fixpoint config env path name _ hsim hU hnc]
          exact ⟨rfl, rfl⟩
        | lnk =>
          unfold Directory_processEntry
          dsimp only [dtypeOf]
          rw [if_neg hps, fileEntry_fixpoint config env path name _ hsim hU hnc]
          exact ⟨rfl, rfl⟩
        | sock =>
          unfold Directory_processEntry
          dsimp only [dtypeOf]
          rw [if_neg hps, fileEntry_fixpoint config env path name _ hsim hU hnc]
          exact ⟨rfl, rfl⟩
        | dir => simp [DType.isSpecial] at hsp
        | reg => simp [DType.isSpecial] at hsp
        | unknown => simp [DType.isSpecial] at hsp
    cases ht : DType.isSpecial t with
    | true => exact hspecial ht
    | false => exact hfile ht

/-- Phase B: a well formed tree whose directories are all scrubbed is a
fixed point of the walk, producing no error output and returning `ENONE`. -/
theorem scrub_fixpoint (config : Configuration) (env : Env)
    (hsim : config.simulate = false) (hO : env.openFails = []) (hU : env.unlinkFails = []) :
    (∀ node : FSNode, ∀ path : Path, wfNode node = true →
      scrubbedInside config node = true → isDirNode node = true →
      (Directory_process config env path node).1 = node ∧
      noErrors (Directory_process config env path node).2.1 = true ∧
      (Directory_process config env path node).2.2 = ENONE) ∧
    (∀ es : Entries, ∀ path : Path, wfEntries es = true →
      scrubbedEntries config es = true →
      (Directory_processEntries config env path es).1 = es ∧
      noErrors (Directory_processEntries config env path es).2 = true) := by
  have hcon : ∀ p : Path, env.openFails.contains p = false := fun p => by rw [hO]; rfl
  refine fs_mutual_ind
    (fun node => ∀ path : Path, wfNode node = true →
      scrubbedInside config node = true → isDirNode node = true →
      (Directory_process config env path node).1 = node ∧
      noErrors (Directory_process config env path node).2.1 = true ∧
      (Directory_process config env path node).2.2 = ENONE)
    (fun es => ∀ path : Path, wfEntries es = true →
      scrubbedEntries config es = true →
      (Directory_processEntries config env path es).1 = es ∧
      noErrors (Directory_processEntries config env path es).2 = true)
    ?_ ?_ ?_ ?_
  · intro t path _ _ hdirn
    simp [isDirNode] at hdirn
  · intro es ih path hwf hscr _
    rw [process_open_ok config env path es (hcon path)]
    have h := ih path hwf hscr
    exact ⟨by rw [h.1], h.2, rfl⟩
  · intro path _ _
    exact ⟨rfl, rfl⟩
  · intro name child rest ih1 ih2 path hwf hscr
    have hw : ((name == "." || name == "..") = false ∧ wfNode child = true) ∧
        wfEntries rest = true := by
      simpa [wfEntries, Bool.and_eq_true, Bool.not_eq_true'] using hwf
    obtain ⟨⟨hdot, hwfc⟩, hwfr⟩ := hw
    have hs : scrubbedNode config name child = true ∧
        scrubbedEntries config rest = true := by
      simpa [scrubbedEntries, Bool.and_eq_true] using hscr
    have hrest := ih2 path hwfr hs.2
    have he := entry_fixpoint config env path name child hsim hO hU hwfc hs.1
      (ih1 (path ++ [name]))
    rw [Directory_processEntries_cons config env path name child rest hdot]
    rw [he.1]
    constructor
    · simp [hrest.1]
    · simp [noErrors_append, he.2, hrest.2]

/-! ## C9: idempotence -/

/-- C9: with no OS failures and `simulate = false`, running the walker a
second time over the tree a first run produced changes nothing, emits no
error line, and returns `ENONE`; and `File_process` on a file the first run
kept is a strict no-op.  (Well-formedness rules out trees a real filesystem
cannot produce: non-directories reporting `DT_DIR` and stored `.`/`..`
entries.) -/
theorem run_idempotent (config : Configuration) (env : Env) (path : Path) (es : Entries)
    (hsim : config.simulate = false) (hO : env.openFails = []) (hU : env.unlinkFails = [])
    (hwf : wfEntries es = true) :
    (Directory_process config env path
      ((Directory_process config env path (.dir es)).1)).1 =
      (Directory_process config env path (.dir es)).1 ∧
    (Directory_process config env path
      ((Directory_process config env path (.dir es)).1)).2.2 = ENONE ∧
    noErrors (Directory_process config env path
      ((Directory_process config env path (.dir es)).1)).2.1 = true ∧
    (∀ (t : DType) (p : Path), (File_process config env p (.file t)).removed = false →
      File_process config env p (.file t) = { removed := false, logs := [], ret := ENONE }) := by
  have hcon : ∀ p : Path, env.openFails.contains p = false := fun p => by rw [hO]; rfl
  have hA := (scrub_establishes config env hsim hO hU).1 (.dir es) path
    (show wfNode (.dir es) = true from hwf)
  have hdir1 : isDirNode (Directory_process config env path (.dir es)).1 = true := by
    rw [process_open_ok config env path es (hcon path)]
    rfl
  have hB := (scrub_fixpoint config env hsim hO hU).1 _ path hA.1 hA.2 hdir1
  refine ⟨hB.1, hB.2.2, hB.2.1, ?_⟩
  intro t p h
  rw [fproc_ideal config env p (.file t) hsim hU] at h ⊢
  by_cases hc : File_shouldClobber config (basenameOf p) = true
  · rw [if_pos hc] at h
    simp at h
  · rw [if_neg hc]

/-- Witness for C9: the run that scrubs `r` containing `junk.tmp` and
`keep` (clobbering `.tmp`) removes the file; running the walker again on
the result leaves it unchanged with no error line. -/
theorem run_idempotent_witness :
    (Directory_process
      { verbose := false, simulate := false, preserveHidden := false,
        preserveSpecial := false, clobberExtensions := ["tmp"], clobberNames := [] }
      { openFails := [], unlinkFails := [], errnoAt := fun _ => 13 }
      ["r"]
      ((Directory_process
        { verbose := false, simulate := false, preserveHidden := false,
          preserveSpecial := false, clobberExtensions := ["tmp"], clobberNames := [] }
        { openFails := [], unlinkFails := [], errnoAt := fun _ => 13 }
        ["r"]
        (.dir (.cons "junk.tmp" (.file .reg) (.cons "keep" (.file .reg) .nil)))).1)).1 =
      (Directory_process
        { verbose := false, simulate := false, preserveHidden := false,
          preserveSpecial := false, clobberExtensions := ["tmp"], clobberNames := [] }
        { openFails := [], unlinkFails := [], errnoAt := fun _ => 13 }
        ["r"]
        (.dir (.cons "junk.tmp" (.file .reg) (.cons "keep" (.file .reg) .nil)))).1 ∧
    (Directory_process
      { verbose := false, simulate := false, preserveHidden := false,
        preserveSpecial := false, clobberExtensions := ["tmp"], clobberNames := [] }
      { openFails := [], unlinkFails := [], errnoAt := fun _ => 13 }
      ["r"]
      (.dir (.cons "junk.tmp" (.file .reg) (.cons "keep" (.file .reg) .nil)))).1 =
      .dir (.cons "keep" (.file .reg) .nil) ∧
    noErrors (Directory_process
      { verbose := false, simulate := false, preserveHidden := false,
        preserveSpecial := false, clobberExtensions := ["tmp"], clobberNames := [] }
      { openFails := [], unlinkFails := [], errnoAt := fun _ => 13 }
      ["r"]
      ((Directory_process
        { verbose := false, simulate := false, preserveHidden := false,
          preserveSpecial := false, clobberExtensions := ["tmp"], clobberNames := [] }
        { openFails := [], unlinkFails := [], errnoAt := fun _ => 13 }
        ["r"]
        (.dir (.cons "junk.tmp" (.file .reg) (.cons "keep" (.file .reg) .nil)))).1)).2.1 =
      true := by
  have h := run_idempotent
    { verbose := false, simulate := false, preserveHidden := false,
      preserveSpecial := false, clobberExtensions := ["tmp"], clobberNames := [] }
    { openFails := [], unlinkFails := [], errnoAt := fun _ => 13 }
    ["r"]
    (.cons "junk.tmp" (.file .reg) (.cons "keep" (.file .reg) .nil))
    rfl rfl rfl (by decide)
  exact ⟨h.1, by decide, h.2.2.1⟩

end Scrub
